import Mathlib

/-!
Shallow embedding of the LASTRO pilot dashboard (src/07_dashboard_app.py).

The script is a linear pandas pipeline: load-and-coerce, filter, group-and-
aggregate, render/export.  We embed the working table as a list of records
plus presence flags for the two optional identifier columns (isrc, upc); the
eight categorical columns always exist after load because load_data creates
them when missing.  Monetary amounts and unit counts are modelled as exact
rationals.  Dates are modelled as natural numbers ordered like calendar dates.

Modelling notes, written against the source:
- pandas Series.str.contains is called with its default arguments, so pandas
  treats the search text as a regular expression (re.search semantics).  We
  embed that interpretation faithfully on the fragment of patterns built from
  literal characters and the dot metacharacter (dot matches any character
  except the newline); patterns using other metacharacters are outside the
  model (the library then performs full regex matching, or raises on invalid
  patterns).  Literal substring containment, which is what the specification
  describes, is a separate predicate kept for comparison; on metacharacter
  free patterns the two provably coincide.
- Python str.lower and str.strip are modelled on character lists (ASCII case
  folding and ASCII whitespace stripping).
- pandas groupby uses sort=True by default, so group keys come out sorted; we
  model the key order by sorting the deduplicated key list.
- pandas sort_values with the default algorithm returns some permutation
  ordered by the sort key; we model it with mergeSort, a particular such
  permutation.
-/

/-- Models Python str.lower (ASCII case folding, per character). -/
def lowerStr (s : String) : String := String.mk (s.data.map Char.toLower)

/-- Whitespace characters removed by Python str.strip (ASCII subset). -/
def isPyWhitespace (c : Char) : Bool :=
  c == ' ' || c == '\t' || c == '\n' || c == '\r' || c == '\x0b' || c == '\x0c'

/-- Models Python str.strip: drop leading and trailing whitespace. -/
def stripStr (s : String) : String :=
  String.mk (((s.data.dropWhile isPyWhitespace).reverse.dropWhile isPyWhitespace).reverse)

/-- Normalisation the sidebar applies to the raw search box text before the
filter stage sees it: strip, then lower (line 78 of the script). -/
def normSearch (raw : String) : String := lowerStr (stripStr raw)

/-- Does the character list start with the given pattern. -/
def leadsWith : List Char → List Char → Bool
  | [], _ => true
  | _ :: _, [] => false
  | a :: as, b :: bs => a == b && leadsWith as bs

/-- Does the haystack contain the pattern as a contiguous sublist. -/
def hasSubstr (needle : List Char) : List Char → Bool
  | [] => needle.isEmpty
  | h :: t => leadsWith needle (h :: t) || hasSubstr needle t

/-- Literal case-sensitive substring containment.  This is the comparison
predicate the specification describes for the search filter; the source call
itself interprets the search text as a regular expression, modelled below by
strContainsPat, and the two coincide exactly on metacharacter free search
text. -/
def strContains (hay needle : String) : Bool := hasSubstr needle.data hay.data

/-- Characters that are metacharacters of Python regular expressions. -/
def isRegexMeta (c : Char) : Bool :=
  c == '.' || c == '^' || c == '$' || c == '*' || c == '+' || c == '?'
  || c == '\x7b' || c == '\x7d' || c == '[' || c == ']' || c == '\\'
  || c == '|' || c == '(' || c == ')'

/-- One element of a regex pattern in the modelled fragment: a literal
character, or the dot metacharacter. -/
inductive RegexItem where
  | lit (c : Char)
  | dot
deriving DecidableEq

/-- Parses a pattern into the modelled regex fragment: the dot becomes the
any-character item, any other metacharacter puts the pattern outside the
model, and every remaining character stands for itself. -/
def parsePattern : List Char → Option (List RegexItem)
  | [] => some []
  | c :: cs =>
    if c == '.' then (parsePattern cs).map (fun is => RegexItem.dot :: is)
    else if isRegexMeta c then none
    else (parsePattern cs).map (fun is => RegexItem.lit c :: is)

/-- Does one pattern item match one character: a literal matches itself; the
dot matches any character except the newline (re.DOTALL is not set). -/
def itemMatches : RegexItem → Char → Bool
  | RegexItem.lit c, x => c == x
  | RegexItem.dot, x => x != '\n'

/-- Does the pattern match a prefix of the character list. -/
def matchesAt : List RegexItem → List Char → Bool
  | [], _ => true
  | _ :: _, [] => false
  | i :: is, c :: cs => itemMatches i c && matchesAt is cs

/-- Models re.search for a pattern of the fragment: does the pattern match at
some position of the haystack. -/
def regexSearch (pat : List RegexItem) : List Char → Bool
  | [] => pat.isEmpty
  | c :: cs => matchesAt pat (c :: cs) || regexSearch pat cs

/-- Models pandas Series.str.contains applied to one cell, with its default
regex interpretation of the search text, faithfully for patterns inside the
modelled fragment.  Patterns outside the fragment (metacharacters beyond the
dot) are not modelled: the library would do full regex matching there, or
raise on an invalid pattern, and no claim is settled on such patterns. -/
def strContainsPat (hay pat : String) : Bool :=
  match parsePattern pat.data with
  | some p => regexSearch p hay.data
  | none => false

/-- Models Python sorted on a list of strings (lexicographic code point
order), as used for group keys and for the distributor sets of top tracks. -/
def sortStrings (l : List String) : List String :=
  l.mergeSort (fun a b => decide (a ≤ b))

/-- Models pandas Series.min on a column of dates: none on an empty column
(pandas yields NaN there), otherwise the least element. -/
def minDate : List Nat → Option Nat
  | [] => none
  | d :: ds =>
    match minDate ds with
    | none => some d
    | some m => some (Nat.min d m)

/-- Models pandas Series.max on a column of dates: none on an empty column
(pandas yields NaN there), otherwise the greatest element. -/
def maxDate : List Nat → Option Nat
  | [] => none
  | d :: ds =>
    match maxDate ds with
    | none => some d
    | some m => some (Nat.max d m)

/-- One row of the working table produced by load_data.  period_date is the
date-only projection of period used by the range filter; the categorical
columns are never null after load (sentinels were filled in); isrc and upc
carry meaningful values only when the corresponding column exists, which the
enclosing Table records. -/
structure Row where
  period_date : Nat
  net_royalty : ℚ
  units : ℚ
  distributor : String
  artist : String
  track_title : String
  release_title : String
  store : String
  country : String
  currency : String
  classification : String
  isrc : String
  upc : String
deriving DecidableEq

/-- The working dataframe: its rows plus presence flags for the two optional
identifier columns consulted by the search filter (line 102 of the script
checks membership in f.columns).  Filtering never changes the column set, so
these flags travel unchanged through the filter stage. -/
structure Table where
  rows : List Row
  hasIsrc : Bool
  hasUpc : Bool
deriving DecidableEq

/-- Raw cell of a categorical column before load_data fills sentinels.
pandas astype(str) renders a missing value as the string "nan" (for NaN) or
"None" (for Python None); text cells keep their exact characters. -/
inductive RawCell where
  | nullNaN
  | nullNone
  | text (s : String)
deriving DecidableEq

/-- Models astype(str) on one cell (line 40 of the script). -/
def astypeStr : RawCell → String
  | RawCell.nullNaN => "nan"
  | RawCell.nullNone => "None"
  | RawCell.text s => s

/-- Models .replace with the mapping sending the literal strings "nan" and
"None" back to a missing value (line 40 of the script). -/
def replaceNullTokens (s : String) : Option String :=
  if s = "nan" ∨ s = "None" then none else some s

/-- Models .fillna with the sentinel label (line 40 of the script). -/
def fillna (fill : String) : Option String → String
  | none => fill
  | some s => s

/-- Composite per-cell treatment of a present categorical column:
astype(str), then replace of the null tokens, then fillna. -/
def fillCategorical (fill : String) (c : RawCell) : String :=
  fillna fill (replaceNullTokens (astypeStr c))

/-- Models the loop body of load_data for one categorical column (lines
29-42): a present column is cleaned cell by cell; an absent column is created
with the sentinel in every one of the n rows. -/
def loadColumn (fill : String) (col : Option (List RawCell)) (n : Nat) : List String :=
  match col with
  | some cells => cells.map (fillCategorical fill)
  | none => List.replicate n fill

/-- Models the period handling of load_data (lines 24-25): to_datetime with
errors=coerce turns an unparseable period into a missing value, and dropna
then removes exactly those rows.  A source row is represented here by its
parse result alone. -/
def dropUnparseable (periods : List (Option Nat)) : List Nat :=
  periods.filterMap id

/-- Models the setup of the date range control (lines 57-59): it needs the
minimum and the maximum of the derived date column as actual dates; on an
empty column both are undefined and the control cannot be built. -/
def dateInputSetup (dates : List Nat) : Option (Nat × Nat) :=
  match minDate dates, maxDate dates with
  | some a, some b => some (a, b)
  | _, _ => none

/-- Value returned by the date range control: either a pair of dates or a
single date (any non-pair return of the widget takes the fallback branch of
lines 62-65, which this constructor stands for). -/
inductive DateInput where
  | pair (a b : Nat)
  | single (a : Nat)
deriving DecidableEq

/-- Models lines 62-65: a genuine pair is used as the bounds; anything else
falls back to the full (dmin, dmax) range of the loaded table. -/
def resolveDateRange (d : DateInput) (dmin dmax : Nat) : Nat × Nat :=
  match d with
  | DateInput.pair a b => (a, b)
  | DateInput.single _ => (dmin, dmax)

/-- Filter parameters as the filter block of lines 85-109 receives them:
start and end dates already resolved, the four selection lists, the search
text already stripped and lowered by the sidebar, and the two minimums. -/
structure FilterParams where
  start_date : Nat
  end_date : Nat
  sel_dist : List String
  sel_class : List String
  sel_store : List String
  sel_country : List String
  search : String
  min_rev : ℚ
  min_units : ℚ

/-- Models line 87: keep rows whose date lies between the bounds, both
inclusive. -/
def dateFilter (s e : Nat) (rows : List Row) : List Row :=
  rows.filter (fun r => decide (s ≤ r.period_date) && decide (r.period_date ≤ e))

/-- Models one multiselect filter (lines 89-96): a non-empty selection keeps
the rows whose key is in the selection via isin; an empty selection skips the
filter entirely (Python truthiness of the empty list). -/
def applySel (key : Row → String) (sel : List String) (rows : List Row) : List Row :=
  if sel.isEmpty then rows else rows.filter (fun r => List.elem (key r) sel)

/-- Models the per-row search mask of lines 99-103: the three text columns
always exist after load; isrc and upc contribute only when present. -/
def rowMatches (t : Table) (search : String) (r : Row) : Bool :=
  strContainsPat (lowerStr r.track_title) search
  || strContainsPat (lowerStr r.release_title) search
  || strContainsPat (lowerStr r.artist) search
  || (t.hasIsrc && strContainsPat (lowerStr r.isrc) search)
  || (t.hasUpc && strContainsPat (lowerStr r.upc) search)

/-- Models lines 98-104: an empty search string skips the filter (Python
truthiness of the empty string); otherwise keep the rows matching the mask. -/
def applySearch (search : String) (t : Table) : Table :=
  if search = "" then t else { t with rows := t.rows.filter (rowMatches t search) }

/-- Models lines 106-109: a strictly positive minimum keeps the rows whose
value reaches it; a minimum of zero (or below) skips the filter. -/
def applyMin (key : Row → ℚ) (m : ℚ) (rows : List Row) : List Row :=
  if 0 < m then rows.filter (fun r => decide (m ≤ key r)) else rows

/-- The whole filter stage, lines 85-109, in source order: date range, the
four multiselects, search, then the two numeric minimums. -/
def applyFilters (p : FilterParams) (t : Table) : Table :=
  let f1 : Table := { t with rows := dateFilter p.start_date p.end_date t.rows }
  let f2 : Table := { f1 with rows := applySel (fun r => r.distributor) p.sel_dist f1.rows }
  let f3 : Table := { f2 with rows := applySel (fun r => r.classification) p.sel_class f2.rows }
  let f4 : Table := { f3 with rows := applySel (fun r => r.store) p.sel_store f3.rows }
  let f5 : Table := { f4 with rows := applySel (fun r => r.country) p.sel_country f4.rows }
  let f6 : Table := applySearch p.search f5
  let f7 : Table := { f6 with rows := applyMin (fun r => r.net_royalty) p.min_rev f6.rows }
  { f7 with rows := applyMin (fun r => r.units) p.min_units f7.rows }

/-- Models line 114: the total revenue KPI, the sum of net_royalty over the
filtered rows. -/
def total_rev (rows : List Row) : ℚ := (rows.map Row.net_royalty).sum

/-- Models line 115: the total units KPI. -/
def total_units (rows : List Row) : ℚ := (rows.map Row.units).sum

/-- One output row of a grouped aggregation by a categorical key: the key and
the two summed measures. -/
structure GroupRow where
  key : String
  net_royalty : ℚ
  units : ℚ
deriving DecidableEq

/-- Group keys of a pandas groupby over a categorical column: the distinct
values, sorted (groupby sorts keys by default). -/
def groupKeys (key : Row → String) (rows : List Row) : List String :=
  sortStrings ((rows.map key).dedup)

/-- Models groupby(column)[[net_royalty, units]].sum(): one output row per
distinct key, carrying the sums of the two measures over that key's rows. -/
def groupSums (key : Row → String) (rows : List Row) : List GroupRow :=
  (groupKeys key rows).map (fun k =>
    ⟨k, ((rows.filter (fun r => key r == k)).map Row.net_royalty).sum,
        ((rows.filter (fun r => key r == k)).map Row.units).sum⟩)

/-- Boolean comparison putting larger summed revenue first, used to model
sort_values(net_royalty, ascending=False) on grouped rows. -/
def revDescGroup (a b : GroupRow) : Bool := decide (b.net_royalty ≤ a.net_royalty)

/-- Models line 139: revenue and units by distributor, sorted descending by
revenue. -/
def by_dist (rows : List Row) : List GroupRow :=
  (groupSums (fun r => r.distributor) rows).mergeSort revDescGroup

/-- Models line 144: revenue and units by classification, sorted descending
by revenue. -/
def by_class (rows : List Row) : List GroupRow :=
  (groupSums (fun r => r.classification) rows).mergeSort revDescGroup

/-- Models line 151: revenue and units by store, sorted descending by revenue
and truncated to the top 20. -/
def by_store (rows : List Row) : List GroupRow :=
  ((groupSums (fun r => r.store) rows).mergeSort revDescGroup).take 20

/-- Models line 156: revenue and units by country, sorted descending by
revenue and truncated to the top 20. -/
def by_country (rows : List Row) : List GroupRow :=
  ((groupSums (fun r => r.country) rows).mergeSort revDescGroup).take 20

/-- One output row of the top tracks aggregation (lines 162-168). -/
structure TrackAgg where
  track_title : String
  revenue : ℚ
  units : ℚ
  distributor : String
deriving DecidableEq

/-- Rows of the filtered table belonging to one track title. -/
def trackRows (rows : List Row) (ttl : String) : List Row :=
  rows.filter (fun r => r.track_title == ttl)

/-- Models the distributor aggregation of line 165: the comma-joined sorted
list of the distinct distributors of the title's rows. -/
def trackDistributors (rows : List Row) (ttl : String) : String :=
  String.intercalate ", " (sortStrings ((trackRows rows ttl).map Row.distributor).dedup)

/-- Models the groupby-agg of lines 162-165: one row per distinct track
title with summed revenue, summed units, and the joined distributor set. -/
def groupTracks (rows : List Row) : List TrackAgg :=
  (sortStrings ((rows.map Row.track_title).dedup)).map (fun ttl =>
    ⟨ttl, ((trackRows rows ttl).map Row.net_royalty).sum,
          ((trackRows rows ttl).map Row.units).sum,
          trackDistributors rows ttl⟩)

/-- Boolean comparison putting larger revenue first, used to model
sort_values(revenue, ascending=False) on the track aggregation. -/
def revDescTrack (a b : TrackAgg) : Bool := decide (b.revenue ≤ a.revenue)

/-- Models lines 162-168 in full: the track aggregation sorted descending by
revenue and truncated to the top 30. -/
def top_tracks (rows : List Row) : List TrackAgg :=
  ((groupTracks rows).mergeSort revDescTrack).take 30

/-- Concrete row used by the witnesses. -/
def sampleRow1 : Row :=
  ⟨5, 10, 100, "DistA", "Artist1", "Song One", "Album One", "StoreX", "BR", "BRL",
   "certo", "xISRC123y", "111"⟩

/-- Second concrete row used by the witnesses. -/
def sampleRow2 : Row :=
  ⟨9, 0, 0, "DistB", "Artist2", "Song Two", "Album Two", "StoreY", "US", "USD",
   "incerto", "QQQQ", "222"⟩

/-- Concrete working table used by the witnesses; both optional identifier
columns are present. -/
def sampleTable : Table := ⟨[sampleRow1, sampleRow2], true, true⟩

/-- Concrete row none of whose searchable columns contains a dot, used to
separate the regex interpretation of the search from literal substring
matching. -/
def dotRow : Row :=
  ⟨1, 1, 1, "ab", "ef", "ab", "cd", "st", "br", "rl", "ct", "gh", "ij"⟩

/-- One-row table around dotRow with both optional columns present. -/
def dotTable : Table := ⟨[dotRow], true, true⟩

/-- Statement of the minimum-threshold behaviour: a zero minimum is a
pass-through for both numeric filters, and a positive minimum t keeps exactly
the rows whose measure reaches t. -/
def minThresholdOk (rows : List Row) (t : ℚ) : Prop :=
  applyMin (fun r => r.net_royalty) 0 rows = rows
  ∧ applyMin (fun r => r.units) 0 rows = rows
  ∧ (∀ r, r ∈ applyMin (fun r => r.net_royalty) t rows ↔ r ∈ rows ∧ t ≤ r.net_royalty)
  ∧ (∀ r, r ∈ applyMin (fun r => r.units) t rows ↔ r ∈ rows ∧ t ≤ r.units)

/-- Statement of the categorical fill behaviour of load_data for one column,
for a text value s that is neither of the two null tokens: an absent column
is created filled with the sentinel, null cells and the literal strings
"nan" and "None" become the sentinel, and the cell s is kept exactly as it
is (no trimming, empty strings included). -/
def categoricalFillOk (fill : String) (n : Nat) (s : String) : Prop :=
  loadColumn fill none n = List.replicate n fill
  ∧ (∀ v ∈ loadColumn fill none n, v = fill)
  ∧ fillCategorical fill RawCell.nullNaN = fill
  ∧ fillCategorical fill RawCell.nullNone = fill
  ∧ fillCategorical fill (RawCell.text "nan") = fill
  ∧ fillCategorical fill (RawCell.text "None") = fill
  ∧ fillCategorical fill (RawCell.text s) = s
  ∧ (∀ cells, loadColumn fill (some cells) n = cells.map (fillCategorical fill))

/-- Statement of the search filter behaviour for raw box content q: the empty
search is a pass-through, and a non-empty normalised search keeps exactly the
rows in which one of the searchable columns that exist contains the
normalised text as a literal substring, the comparison being made on
lowercased column values.  The filter itself matches by regex; this statement
is provable only for metacharacter free search text, where the two agree. -/
def searchFilterOk (t : Table) (q : String) : Prop :=
  applySearch "" t = t
  ∧ (∀ r, r ∈ (applySearch (normSearch q) t).rows ↔
      r ∈ t.rows ∧
        (strContains (lowerStr r.track_title) (normSearch q) = true
          ∨ strContains (lowerStr r.release_title) (normSearch q) = true
          ∨ strContains (lowerStr r.artist) (normSearch q) = true
          ∨ (t.hasIsrc = true ∧ strContains (lowerStr r.isrc) (normSearch q) = true)
          ∨ (t.hasUpc = true ∧ strContains (lowerStr r.upc) (normSearch q) = true)))

/-- Statement of the date-range behaviour, with m and M the minimum and
maximum dates of the loaded table: the filter bounds are inclusive on both
sides, a single-date control value resolves to the full (m, M) range, and
filtering by the full range keeps every row. -/
def dateRangeOk (rows : List Row) (s e a m M : Nat) : Prop :=
  (∀ r, r ∈ dateFilter s e rows ↔ r ∈ rows ∧ (s ≤ r.period_date ∧ r.period_date ≤ e))
  ∧ resolveDateRange (DateInput.single a) m M = (m, M)
  ∧ dateFilter m M rows = rows

/-- Statement of the no-parseable-period behaviour: the working table comes
out empty, the minimum and maximum of its date column are undefined, and the
date control setup fails instead of proceeding. -/
def emptyPeriodsOk (ps : List (Option Nat)) : Prop :=
  dropUnparseable ps = []
  ∧ minDate (dropUnparseable ps) = none
  ∧ maxDate (dropUnparseable ps) = none
  ∧ dateInputSetup (dropUnparseable ps) = none

/-! Helper lemmas shared by the claim theorems. -/

theorem applySel_sublist (key : Row → String) (sel : List String) (rows : List Row) :
    (applySel key sel rows).Sublist rows := by
  unfold applySel
  split
  · exact List.Sublist.refl _
  · exact List.filter_sublist _

theorem applyMin_sublist (key : Row → ℚ) (m : ℚ) (rows : List Row) :
    (applyMin key m rows).Sublist rows := by
  unfold applyMin
  split
  · exact List.filter_sublist _
  · exact List.Sublist.refl _

theorem applySearch_rows_sublist (s : String) (t : Table) :
    (applySearch s t).rows.Sublist t.rows := by
  unfold applySearch
  split
  · exact List.Sublist.refl _
  · exact List.filter_sublist _

theorem applySearch_hasIsrc (s : String) (t : Table) :
    (applySearch s t).hasIsrc = t.hasIsrc := by
  unfold applySearch
  split <;> rfl

theorem applySearch_hasUpc (s : String) (t : Table) :
    (applySearch s t).hasUpc = t.hasUpc := by
  unfold applySearch
  split <;> rfl

theorem applyFilters_rows_sublist (p : FilterParams) (t : Table) :
    (applyFilters p t).rows.Sublist t.rows := by
  unfold applyFilters
  dsimp only
  exact ((applyMin_sublist _ _ _).trans
    ((applyMin_sublist _ _ _).trans
      ((applySearch_rows_sublist _ _).trans
        ((applySel_sublist _ _ _).trans
          ((applySel_sublist _ _ _).trans
            ((applySel_sublist _ _ _).trans
              ((applySel_sublist _ _ _).trans
                (List.filter_sublist _))))))))

theorem applyFilters_hasIsrc (p : FilterParams) (t : Table) :
    (applyFilters p t).hasIsrc = t.hasIsrc := by
  unfold applyFilters
  dsimp only
  rw [applySearch_hasIsrc]

theorem applyFilters_hasUpc (p : FilterParams) (t : Table) :
    (applyFilters p t).hasUpc = t.hasUpc := by
  unfold applyFilters
  dsimp only
  rw [applySearch_hasUpc]

theorem applySel_nil (key : Row → String) (rows : List Row) :
    applySel key [] rows = rows := by
  simp [applySel]

theorem mem_applySel_cons (key : Row → String) (x : String) (sel : List String)
    (rows : List Row) (r : Row) :
    r ∈ applySel key (x :: sel) rows ↔ r ∈ rows ∧ key r ∈ x :: sel := by
  simp [applySel, List.mem_filter, List.elem_iff]

theorem applyMin_zero (key : Row → ℚ) (rows : List Row) :
    applyMin key 0 rows = rows := by
  simp [applyMin]

theorem mem_applyMin (key : Row → ℚ) {m : ℚ} (h : 0 < m) (rows : List Row) (r : Row) :
    r ∈ applyMin key m rows ↔ r ∈ rows ∧ m ≤ key r := by
  simp [applyMin, if_pos h, List.mem_filter]

theorem minDate_eq_none {l : List Nat} (h : minDate l = none) : l = [] := by
  cases l with
  | nil => rfl
  | cons d ds =>
    exfalso
    cases h' : minDate ds <;> simp [minDate, h'] at h

theorem maxDate_eq_none {l : List Nat} (h : maxDate l = none) : l = [] := by
  cases l with
  | nil => rfl
  | cons d ds =>
    exfalso
    cases h' : maxDate ds <;> simp [maxDate, h'] at h

theorem minDate_le (l : List Nat) {m : Nat} (h : minDate l = some m) :
    ∀ x ∈ l, m ≤ x := by
  induction l generalizing m with
  | nil => simp [minDate] at h
  | cons d ds ih =>
    intro x hx
    cases h' : minDate ds with
    | none =>
      have hds : ds = [] := minDate_eq_none h'
      subst hds
      simp [minDate] at h
      simp at hx
      subst h
      subst hx
      exact Nat.le_refl _
    | some m' =>
      rw [minDate, h'] at h
      have hm : m = Nat.min d m' := by
        simpa using h.symm
      rcases List.mem_cons.mp hx with rfl | hx'
      · exact hm ▸ Nat.min_le_left _ _
      · exact le_trans (hm ▸ Nat.min_le_right d m') (ih h' x hx')

theorem le_maxDate (l : List Nat) {M : Nat} (h : maxDate l = some M) :
    ∀ x ∈ l, x ≤ M := by
  induction l generalizing M with
  | nil => simp [maxDate] at h
  | cons d ds ih =>
    intro x hx
    cases h' : maxDate ds with
    | none =>
      have hds : ds = [] := maxDate_eq_none h'
      subst hds
      simp [maxDate] at h
      simp at hx
      subst h
      subst hx
      exact Nat.le_refl _
    | some M' =>
      rw [maxDate, h'] at h
      have hM : M = Nat.max d M' := by
        simpa using h.symm
      rcases List.mem_cons.mp hx with rfl | hx'
      · exact hM ▸ Nat.le_max_left _ _
      · exact le_trans (ih h' x hx') (hM ▸ Nat.le_max_right d M')

theorem sum_map_ite_eq (a : String) (c : ℚ) :
    ∀ (K : List String), K.Nodup → a ∈ K →
      (K.map (fun k => if a = k then c else 0)).sum = c := by
  intro K
  induction K with
  | nil =>
    intro _ hmem
    exact absurd hmem (List.not_mem_nil a)
  | cons k K ih =>
    intro hnd hmem
    rw [List.map_cons, List.sum_cons]
    by_cases hak : a = k
    · subst hak
      rw [if_pos rfl]
      have hnotin : a ∉ K := (List.nodup_cons.mp hnd).1
      have hzero : (K.map (fun k => if a = k then c else 0)).sum = 0 := by
        apply List.sum_eq_zero
        intro x hx
        rcases List.mem_map.mp hx with ⟨j, hj, rfl⟩
        rw [if_neg]
        intro haj
        exact hnotin (haj ▸ hj)
      rw [hzero, add_zero]
    · rw [if_neg hak, zero_add]
      exact ih (List.nodup_cons.mp hnd).2 ((List.mem_cons.mp hmem).resolve_left hak)

theorem sum_map_filter_partition (v : Row → ℚ) (key : Row → String) :
    ∀ (rows : List Row) (K : List String), K.Nodup → (∀ r ∈ rows, key r ∈ K) →
      (K.map (fun k => ((rows.filter (fun r => key r == k)).map v).sum)).sum
        = (rows.map v).sum := by
  intro rows
  induction rows with
  | nil =>
    intro K _ _
    simp
  | cons r rs ih =>
    intro K hnd hcov
    have hstep : ∀ k : String,
        ((List.filter (fun x => key x == k) (r :: rs)).map v).sum
          = (if key r = k then v r else 0)
            + ((List.filter (fun x => key x == k) rs).map v).sum := by
      intro k
      by_cases h : key r = k
      · rw [List.filter_cons, if_pos (by simpa using h), List.map_cons, List.sum_cons,
          if_pos h]
      · rw [List.filter_cons, if_neg (by simpa using h), if_neg h, zero_add]
    calc (K.map (fun k => ((List.filter (fun x => key x == k) (r :: rs)).map v).sum)).sum
        = (K.map (fun k => (if key r = k then v r else 0)
            + ((List.filter (fun x => key x == k) rs).map v).sum)).sum := by
          simp only [hstep]
      _ = (K.map (fun k => if key r = k then v r else 0)).sum
            + (K.map (fun k => ((List.filter (fun x => key x == k) rs).map v).sum)).sum :=
          List.sum_map_add
      _ = v r + (rs.map v).sum := by
          rw [sum_map_ite_eq (key r) (v r) K hnd (hcov r (List.mem_cons_self r rs)),
            ih K hnd (fun x hx => hcov x (List.mem_cons_of_mem _ hx))]
      _ = ((r :: rs).map v).sum := by
          rw [List.map_cons, List.sum_cons]

theorem groupKeys_nodup (key : Row → String) (rows : List Row) :
    (groupKeys key rows).Nodup :=
  (List.nodup_dedup _).perm (List.mergeSort_perm _ _).symm

theorem mem_groupKeys (key : Row → String) (rows : List Row) :
    ∀ r ∈ rows, key r ∈ groupKeys key rows := by
  intro r hr
  unfold groupKeys sortStrings
  rw [List.mem_mergeSort]
  exact List.mem_dedup.mpr (List.mem_map_of_mem key hr)

theorem decideLe_trans {α : Type} [LinearOrder α] :
    ∀ a b c : α, decide (a ≤ b) = true → decide (b ≤ c) = true → decide (a ≤ c) = true := by
  intro a b c h1 h2
  simp only [decide_eq_true_eq] at h1 h2 ⊢
  exact le_trans h1 h2

theorem decideLe_total {α : Type} [LinearOrder α] :
    ∀ a b : α, (decide (a ≤ b) || decide (b ≤ a)) = true := by
  intro a b
  simpa [Bool.or_eq_true, decide_eq_true_eq] using le_total a b

theorem sortStrings_sorted (l : List String) :
    (sortStrings l).Pairwise (fun a b => a ≤ b) := by
  have h := @List.sorted_mergeSort String (fun a b => decide (a ≤ b))
    (fun a b c => decideLe_trans a b c) (fun a b => decideLe_total a b) l
  exact h.imp (fun hab => of_decide_eq_true hab)

theorem revDescTrack_trans :
    ∀ a b c : TrackAgg, revDescTrack a b = true → revDescTrack b c = true →
      revDescTrack a c = true := by
  intro a b c h1 h2
  simp only [revDescTrack, decide_eq_true_eq] at h1 h2 ⊢
  exact le_trans h2 h1

theorem revDescTrack_total :
    ∀ a b : TrackAgg, (revDescTrack a b || revDescTrack b a) = true := by
  intro a b
  simpa [revDescTrack, Bool.or_eq_true, decide_eq_true_eq] using le_total b.revenue a.revenue

/-! Claim theorems. -/

/-- C1: for every loaded table and every combination of filter parameters,
the table produced by the filter stage consists only of rows of the loaded
table, its row count is at most the loaded count, and its column set is
unchanged (the fixed schema plus the two optional-column presence flags). -/
theorem claimC1_filter_stage_subset (p : FilterParams) (t : Table) :
    (applyFilters p t).rows.Sublist t.rows
    ∧ (applyFilters p t).rows.length ≤ t.rows.length
    ∧ (∀ r ∈ (applyFilters p t).rows, r ∈ t.rows)
    ∧ (applyFilters p t).hasIsrc = t.hasIsrc
    ∧ (applyFilters p t).hasUpc = t.hasUpc := by
  have hs := applyFilters_rows_sublist p t
  exact ⟨hs, hs.length_le, fun r hr => hs.subset hr,
    applyFilters_hasIsrc p t, applyFilters_hasUpc p t⟩

/-- C2: for each of the four categorical dimensions, the empty selection is a
pass-through leaving every row in place, and a non-empty selection keeps
exactly the rows whose value in that column belongs to the selection. -/
theorem claimC2_multiselect_semantics (rows : List Row) (x : String) (sel : List String) :
    (applySel (fun r => r.distributor) [] rows = rows
      ∧ applySel (fun r => r.classification) [] rows = rows
      ∧ applySel (fun r => r.store) [] rows = rows
      ∧ applySel (fun r => r.country) [] rows = rows)
    ∧ (∀ r, (r ∈ applySel (fun r => r.distributor) (x :: sel) rows
          ↔ r ∈ rows ∧ r.distributor ∈ x :: sel)
        ∧ (r ∈ applySel (fun r => r.classification) (x :: sel) rows
          ↔ r ∈ rows ∧ r.classification ∈ x :: sel)
        ∧ (r ∈ applySel (fun r => r.store) (x :: sel) rows
          ↔ r ∈ rows ∧ r.store ∈ x :: sel)
        ∧ (r ∈ applySel (fun r => r.country) (x :: sel) rows
          ↔ r ∈ rows ∧ r.country ∈ x :: sel)) := by
  refine ⟨⟨applySel_nil _ _, applySel_nil _ _, applySel_nil _ _, applySel_nil _ _⟩, ?_⟩
  intro r
  exact ⟨mem_applySel_cons _ x sel rows r, mem_applySel_cons _ x sel rows r,
    mem_applySel_cons _ x sel rows r, mem_applySel_cons _ x sel rows r⟩

/-- C3: a zero minimum keeps every row (rows with a measure of exactly zero
included), and a positive minimum t keeps exactly the rows whose net_royalty
(respectively units) is at least t. -/
theorem claimC3_minimum_thresholds (rows : List Row) (t : ℚ) (h : 0 < t) :
    minThresholdOk rows t := by
  refine ⟨applyMin_zero _ rows, applyMin_zero _ rows, ?_, ?_⟩
  · intro r
    exact mem_applyMin _ h rows r
  · intro r
    exact mem_applyMin _ h rows r

/-- Witness for C3 at a concrete table and the threshold 10. -/
theorem claimC3_minimum_thresholds_witness :
    (0 : ℚ) < 10 ∧ minThresholdOk [sampleRow1, sampleRow2] 10 :=
  ⟨by norm_num, claimC3_minimum_thresholds [sampleRow1, sampleRow2] 10 (by norm_num)⟩

/-- C4, counterexample to the claim as stated: load_data does not replace an
empty cell with the sentinel (astype(str) leaves the empty string in place
and only the literal strings "nan" and "None" are sent back to null before
fillna), and it does not trim values either. -/
theorem claimC4_counterexample :
    fillCategorical "(sem distribuidora)" (RawCell.text "") = ""
    ∧ ("" : String) ≠ "(sem distribuidora)"
    ∧ fillCategorical "(sem faixa)" (RawCell.text " A ") = " A "
    ∧ (" A " : String) ≠ "A" := by
  constructor
  · rfl
  constructor
  · decide
  constructor
  · rfl
  · decide

/-- C4, amended: for every categorical column in the fixed list, an absent
column is created with every row equal to the sentinel; a present column has
its null cells and its cells holding the literal strings "nan" or "None"
replaced by the sentinel, and every other cell (empty or padded strings
included) kept exactly as it is, untrimmed. -/
theorem claimC4_categorical_fill (fill : String) (n : Nat) (s : String)
    (h1 : s ≠ "nan") (h2 : s ≠ "None") : categoricalFillOk fill n s := by
  refine ⟨rfl, ?_, rfl, rfl, ?_, ?_, ?_, fun cells => rfl⟩
  · intro v hv
    exact List.eq_of_mem_replicate hv
  · simp [fillCategorical, astypeStr, replaceNullTokens, fillna]
  · simp [fillCategorical, astypeStr, replaceNullTokens, fillna]
  · simp [fillCategorical, astypeStr, replaceNullTokens, fillna, h1, h2]

/-- Witness for the amended C4 at the empty string: the empty cell is kept
empty rather than replaced by the sentinel. -/
theorem claimC4_categorical_fill_witness :
    ("" : String) ≠ "nan" ∧ ("" : String) ≠ "None"
      ∧ categoricalFillOk "(sem distribuidora)" 2 "" :=
  ⟨by decide, by decide,
    claimC4_categorical_fill "(sem distribuidora)" 2 "" (by decide) (by decide)⟩

theorem parse_litOnly :
    ∀ (s : List Char), s.all (fun c => !isRegexMeta c) = true →
      parsePattern s = some (s.map RegexItem.lit) := by
  intro s
  induction s with
  | nil => intro _; rfl
  | cons c cs ih =>
    intro h
    rw [List.all_cons, Bool.and_eq_true] at h
    have hnm : isRegexMeta c = false := by
      simpa using h.1
    have hdot : (c == '.') = false := by
      cases hbe : (c == '.') with
      | false => rfl
      | true =>
        exfalso
        have hc : c = '.' := eq_of_beq hbe
        subst hc
        simp [isRegexMeta] at hnm
    rw [parsePattern, hdot, if_neg (by simp), if_neg (by simp [hnm]), ih h.2]
    rfl

theorem matchesAt_lit :
    ∀ (pat hay : List Char), matchesAt (pat.map RegexItem.lit) hay = leadsWith pat hay := by
  intro pat
  induction pat with
  | nil => intro hay; rfl
  | cons c cs ih =>
    intro hay
    cases hay with
    | nil => rfl
    | cons h t =>
      show (itemMatches (RegexItem.lit c) h && matchesAt (cs.map RegexItem.lit) t)
        = (c == h && leadsWith cs t)
      rw [ih t]
      rfl

theorem regexSearch_lit :
    ∀ (hay pat : List Char), regexSearch (pat.map RegexItem.lit) hay = hasSubstr pat hay := by
  intro hay
  induction hay with
  | nil =>
    intro pat
    cases pat <;> rfl
  | cons c cs ih =>
    intro pat
    show (matchesAt (pat.map RegexItem.lit) (c :: cs) || regexSearch (pat.map RegexItem.lit) cs)
      = (leadsWith pat (c :: cs) || hasSubstr pat cs)
    rw [matchesAt_lit, ih]

theorem strContainsPat_eq_strContains (hay pat : String)
    (h : pat.data.all (fun c => !isRegexMeta c) = true) :
    strContainsPat hay pat = strContains hay pat := by
  unfold strContainsPat strContains
  rw [parse_litOnly pat.data h]
  exact regexSearch_lit hay.data pat.data

/-- C5, counterexample to the claim as stated: the source leaves str.contains
at its default regex interpretation, so the search text consisting of a single
dot keeps a row none of whose searchable columns contains a dot as a literal
substring; the filter does not keep exactly the literally-matching rows for
every search string. -/
theorem claimC5_counterexample :
    dotRow ∈ (applySearch (normSearch ".") dotTable).rows
    ∧ strContains (lowerStr dotRow.track_title) (normSearch ".") = false
    ∧ strContains (lowerStr dotRow.release_title) (normSearch ".") = false
    ∧ strContains (lowerStr dotRow.artist) (normSearch ".") = false
    ∧ strContains (lowerStr dotRow.isrc) (normSearch ".") = false
    ∧ strContains (lowerStr dotRow.upc) (normSearch ".") = false := by
  decide

/-- C5, amended: the empty search keeps every row; a non-empty normalised
search free of regex metacharacters keeps exactly the rows in which at least
one searchable text column that exists (track title, release title, artist,
and isrc and upc when their columns are present) contains the search text as
a substring, compared on lowercased values, which realises case-insensitive
substring matching.  Search text containing metacharacters is interpreted as
a regular expression by the underlying library call instead. -/
theorem claimC5_search_filter (t : Table) (q : String) (h : normSearch q ≠ "")
    (hlit : (normSearch q).data.all (fun c => !isRegexMeta c) = true) :
    searchFilterOk t q := by
  constructor
  · simp [applySearch]
  · intro r
    rw [applySearch, if_neg h]
    have hb : ∀ hay : String,
        strContainsPat hay (normSearch q) = strContains hay (normSearch q) :=
      fun hay => strContainsPat_eq_strContains hay (normSearch q) hlit
    simp [rowMatches, List.mem_filter, hb, Bool.or_eq_true, Bool.and_eq_true, or_assoc]

/-- Witness for C5: the raw box content " IsRc123 " is stripped and lowered
to a non-empty metacharacter free search, and the statement holds on a
concrete table whose first row carries the isrc value xISRC123y. -/
theorem claimC5_search_filter_witness :
    normSearch " IsRc123 " ≠ ""
    ∧ (normSearch " IsRc123 ").data.all (fun c => !isRegexMeta c) = true
    ∧ searchFilterOk sampleTable " IsRc123 " :=
  ⟨by decide, by decide,
    claimC5_search_filter sampleTable " IsRc123 " (by decide) (by decide)⟩

/-- C6: the sum over all groups of the grouped-by-distributor revenue totals
equals the total revenue KPI computed over the same filtered rows; grouping
neither loses nor double-counts any row. -/
theorem claimC6_aggregation_completeness (rows : List Row) :
    ((by_dist rows).map GroupRow.net_royalty).sum = total_rev rows := by
  unfold by_dist total_rev
  rw [((List.mergeSort_perm (groupSums (fun r => r.distributor) rows) revDescGroup).map
    GroupRow.net_royalty).sum_eq]
  unfold groupSums
  rw [List.map_map]
  exact sum_map_filter_partition Row.net_royalty (fun r => r.distributor) rows
    (groupKeys (fun r => r.distributor) rows)
    (groupKeys_nodup (fun r => r.distributor) rows)
    (mem_groupKeys (fun r => r.distributor) rows)

theorem mem_sortStrings (l : List String) (a : String) : a ∈ sortStrings l ↔ a ∈ l :=
  List.mem_mergeSort

theorem sortStrings_nodup {l : List String} (h : l.Nodup) : (sortStrings l).Nodup :=
  h.perm (List.mergeSort_perm _ _).symm

/-- C7: the top tracks aggregation produces one row per distinct track title,
whose revenue and units are the sums over that title's rows and whose
distributor field joins with commas the sorted deduplicated distributor
values of those rows; the final output is a sorted-descending-by-revenue
permutation of the aggregation truncated to its first 30 rows. -/
theorem claimC7_top_tracks (rows : List Row) :
    ((groupTracks rows).map TrackAgg.track_title).Nodup
    ∧ (∀ ttl, ttl ∈ (groupTracks rows).map TrackAgg.track_title
        ↔ ∃ r ∈ rows, r.track_title = ttl)
    ∧ (∀ e ∈ groupTracks rows,
        e.revenue = ((rows.filter (fun r => r.track_title == e.track_title)).map
          Row.net_royalty).sum
        ∧ e.units = ((rows.filter (fun r => r.track_title == e.track_title)).map
          Row.units).sum
        ∧ ∃ ds : List String,
            e.distributor = String.intercalate ", " ds
            ∧ ds.Nodup
            ∧ ds.Pairwise (fun a b => a ≤ b)
            ∧ (∀ d, d ∈ ds ↔ ∃ r ∈ rows, r.track_title = e.track_title ∧ r.distributor = d))
    ∧ (∃ l : List TrackAgg, l.Perm (groupTracks rows)
        ∧ l.Pairwise (fun a b => b.revenue ≤ a.revenue)
        ∧ top_tracks rows = l.take 30)
    ∧ (top_tracks rows).length ≤ 30 := by
  have htitles : (groupTracks rows).map TrackAgg.track_title
      = sortStrings ((rows.map Row.track_title).dedup) := by
    unfold groupTracks
    rw [List.map_map]
    show List.map (fun ttl => ttl) (sortStrings ((rows.map Row.track_title).dedup))
      = sortStrings ((rows.map Row.track_title).dedup)
    exact List.map_id' _
  refine ⟨?_, ?_, ?_, ?_, ?_⟩
  · rw [htitles]
    exact sortStrings_nodup (List.nodup_dedup _)
  · intro ttl
    rw [htitles, mem_sortStrings, List.mem_dedup]
    simp [List.mem_map]
  · intro e he
    unfold groupTracks at he
    rcases List.mem_map.mp he with ⟨ttl, _, rfl⟩
    refine ⟨rfl, rfl,
      sortStrings ((trackRows rows ttl).map Row.distributor).dedup, rfl,
      sortStrings_nodup (List.nodup_dedup _), sortStrings_sorted _, ?_⟩
    intro d
    rw [mem_sortStrings, List.mem_dedup]
    simp [trackRows, List.mem_filter, List.mem_map, and_assoc]
  · refine ⟨(groupTracks rows).mergeSort revDescTrack, List.mergeSort_perm _ _, ?_, rfl⟩
    exact (@List.sorted_mergeSort TrackAgg revDescTrack revDescTrack_trans
      revDescTrack_total (groupTracks rows)).imp (fun hab => of_decide_eq_true hab)
  · exact List.length_take_le 30 ((groupTracks rows).mergeSort revDescTrack)

/-- C9: the date filter keeps exactly the rows whose derived date lies inside
the inclusive bounds, a single-date control value resolves to the full
(minimum, maximum) range of the loaded table, and filtering by that full
range keeps every row. -/
theorem claimC9_date_range (rows : List Row) (s e a m M : Nat)
    (h1 : minDate (rows.map Row.period_date) = some m)
    (h2 : maxDate (rows.map Row.period_date) = some M) :
    dateRangeOk rows s e a m M := by
  refine ⟨?_, rfl, ?_⟩
  · intro r
    simp [dateFilter, List.mem_filter]
  · apply List.filter_eq_self.mpr
    intro r hr
    have hm := minDate_le _ h1 r.period_date (List.mem_map_of_mem Row.period_date hr)
    have hM := le_maxDate _ h2 r.period_date (List.mem_map_of_mem Row.period_date hr)
    simp [hm, hM]

/-- Witness for C9 on a concrete two-row table with dates 5 and 9. -/
theorem claimC9_date_range_witness :
    minDate ([sampleRow1, sampleRow2].map Row.period_date) = some 5
    ∧ maxDate ([sampleRow1, sampleRow2].map Row.period_date) = some 9
    ∧ dateRangeOk [sampleRow1, sampleRow2] 6 7 3 5 9 :=
  ⟨by decide, by decide,
    claimC9_date_range [sampleRow1, sampleRow2] 6 7 3 5 9 (by decide) (by decide)⟩

/-- C10: when no source row has a parseable period, the working table is
empty after load, the minimum and maximum of the derived date column are
undefined, and the date range control setup fails rather than proceeding to
render over the empty table. -/
theorem claimC10_no_parseable_period (ps : List (Option Nat))
    (h : ∀ p ∈ ps, p = none) : emptyPeriodsOk ps := by
  have hnil : dropUnparseable ps = [] := by
    unfold dropUnparseable
    rw [List.filterMap_eq_nil_iff]
    intro a ha
    rw [h a ha]
    rfl
  refine ⟨hnil, ?_, ?_, ?_⟩ <;> rw [hnil] <;> rfl

/-- Witness for C10 on a two-row source whose periods both fail to parse. -/
theorem claimC10_no_parseable_period_witness :
    (∀ p ∈ ([none, none] : List (Option Nat)), p = none)
    ∧ emptyPeriodsOk [none, none] :=
  ⟨by decide, claimC10_no_parseable_period [none, none] (by decide)⟩
